import Mathlib

/-!
Verification of the free-block bookkeeper in `src/bookkeeper.rs` (ralloc).

The development shallowly embeds the bookkeeping core: `Block`, the
`BlockVec` directory, and the operations `alloc`, `alloc_fresh`, `realloc`,
`realloc_inplace`, `free`, `free_ind`, `insert`, `push`, `reserve`, `init`,
together with the helpers `aligner` and `canonicalize_brk`.

Modelling conventions:
- `usize` values are `Nat`, with wrapping arithmetic made explicit
  (`wadd`/`wsub`, reduction modulo `W = 2^64`) where the source relies on
  release-mode wrapping, and saturating arithmetic (`satAdd`) where the
  source uses `saturating_add`.  Debug assertions are test-time aids per
  the source (`#[cfg(debug_assertions)]`) and are modelled as no-ops,
  i.e. release semantics.
- Panics (out-of-bounds indexing, division by zero) and OOM aborts are
  modelled as `none`; raw-pointer writes outside the modelled directory
  buffer are also `none` (outside the model's memory).
- The kernel break (`sys::inc_brk`) is external to the repository; it is
  modelled from the spec as a `brk` field of the state: `inc_brk n`
  returns the prior break and advances it by `n`.
- The directory buffer is a `List Block` of physical slots (`buf`);
  the live slice of the vector is its first `len` elements.
- The five operations that participate in the meta-circular recursion
  (`reserve`, `init`, `push`, `alloc_fresh`, `realloc_inplace`) are
  embedded as one fuel-indexed interpreter `run`, with typed wrappers,
  so that all definitions are structurally recursive and computable.
-/

namespace Ralloc

/-- The width of `usize` on the 64-bit platform the crate targets:
`W = 2 ^ 64 = 18446744073709551616`. -/
def W : Nat := 18446744073709551616

/-- Wrapping (release-mode) `usize` addition. -/
def wadd (a b : Nat) : Nat := (a + b) % W

/-- Wrapping (release-mode) `usize` subtraction, two's complement style. -/
def wsub (a b : Nat) : Nat := (a + (W - b % W)) % W

/-- `usize::saturating_add`. -/
def satAdd (a b : Nat) : Nat := min (a + b) (W - 1)

/-- Modelled from the spec: `block.rs` is not under `src/`; the spec's
data model (section 3) defines a Block as a half-open interval with
fields `ptr` and `size`.  Field order `size, ptr` follows the struct
literals in `bookkeeper.rs` (e.g. lines 175-178). -/
structure Block where
  size : Nat
  ptr : Nat
deriving DecidableEq, Repr

/-- Modelled from the spec: `end(b) = ptr + size`, as address arithmetic
(modulo the address space). -/
def Block.endAddr (b : Block) : Nat := wadd b.ptr b.size

/-- Modelled from the spec: `left_to(b, q) ≡ end(b) == q`. -/
def Block.left_to (b : Block) (q : Nat) : Bool := b.endAddr == q

/-- Modelled from the spec: `is_free(b) ≡ size != 0`. -/
def Block.is_free (b : Block) : Bool := b.size != 0

/-- Modelled from the spec: the source's `set_free` (bookkeeper.rs line 271,
"we are not interested in keeping it marked as free") is the spec's
`set_occupied()`: it zeroes the size, leaving an occupied placeholder. -/
def Block.set_free (b : Block) : Block := { b with size := 0 }

/-- `EMPTY_HEAP`, bookkeeper.rs line 17: sentinel address `0x1` marking an
uninitialised block vector. -/
def EMPTY_HEAP : Nat := 1

/-- `INITIAL_CAPACITY`, bookkeeper.rs line 162. -/
def INITIAL_CAPACITY : Nat := 16

/-- `size_of::<Block>()` on the 64-bit target (a `usize` and a pointer). -/
def sizeOfBlock : Nat := 16

/-- `align_of::<Block>()` on the 64-bit target. -/
def alignOfBlock : Nat := 8

/-- `aligner`, bookkeeper.rs lines 94-96: `align - ptr as usize % align`,
computed unconditionally.  `%` by zero panics in Rust, hence `none` when
`align = 0`. -/
def aligner (ptr align : Nat) : Option Nat :=
  if align = 0 then none else some (align - ptr % align)

/-- `BRK_MULTIPLIER`, bookkeeper.rs line 109. -/
def BRK_MULTIPLIER : Nat := 1
/-- `BRK_MIN`, bookkeeper.rs line 110. -/
def BRK_MIN : Nat := 200
/-- `BRK_MIN_EXTRA`, bookkeeper.rs line 111. -/
def BRK_MIN_EXTRA : Nat := 10000

/-- `canonicalize_brk`, bookkeeper.rs lines 108-118:
`max(BRK_MIN, size.saturating_add(min(BRK_MULTIPLIER * size, BRK_MIN_EXTRA)))`. -/
def canonicalize_brk (size : Nat) : Nat :=
  max BRK_MIN (satAdd size (min (BRK_MULTIPLIER * size) BRK_MIN_EXTRA))

/-- The block vector (bookkeeper.rs lines 127-138) together with the
modelled kernel break.  `buf` is the list of physical Block slots behind
`ptr`; the live vector is `buf.take len`. -/
structure BlockVec where
  cap : Nat
  len : Nat
  seg_end : Nat
  ptr : Nat
  buf : List Block
  brk : Nat
deriving DecidableEq, Repr

/-- The live slice of the vector: the `Deref` impl, bookkeeper.rs
lines 840-848 (`slice::from_raw_parts(*self.ptr, self.len)`). -/
def BlockVec.entries (s : BlockVec) : List Block := s.buf.take s.len

/-- Slice indexing `self[i]` / `self.get(i)`: `some` exactly when `i` is
inside the live slice. -/
def BlockVec.getEntry (s : BlockVec) (i : Nat) : Option Block :=
  s.entries.get? i

/-- In-place update of slot `i` (used only after a successful read of the
same slot, mirroring `&mut self[i]`). -/
def BlockVec.setEntry (s : BlockVec) (i : Nat) (b : Block) : BlockVec :=
  { s with buf := s.buf.set i b }

/-- Modelled from the spec: `inc_brk(n)` "returns the prior segment end
and moves the break forward by `n` bytes" (spec sections 1 and 6). -/
def BlockVec.incBrk (s : BlockVec) (n : Nat) : Nat × BlockVec :=
  (s.brk, { s with brk := s.brk + n })

/-- A raw `ptr::write` of slot `i` of the buffer: only slots physically
inside the modelled buffer can be written. -/
def BlockVec.writeSlot (s : BlockVec) (i : Nat) (b : Block) : Option BlockVec :=
  if i < s.buf.length then some { s with buf := s.buf.set i b } else none

/-- Extend the physical buffer in place to `n` slots (newly exposed slots
hold junk, modelled as `⟨0, 0⟩`). -/
def growBuf (buf : List Block) (n : Nat) : List Block :=
  buf ++ List.replicate (n - buf.length) ⟨0, 0⟩

/-- `ptr::copy` (memmove) of `count` Block slots from slot `src` to slot
`dst` inside the buffer; `none` if the transfer leaves the physical
buffer. -/
def memmoveSlots (buf : List Block) (src dst count : Nat) : Option (List Block) :=
  if src + count ≤ buf.length ∧ dst + count ≤ buf.length then
    some ((List.range buf.length).map (fun k =>
      if dst ≤ k ∧ k < dst + count then buf.getD (src + (k - dst)) ⟨0, 0⟩
      else buf.getD k ⟨0, 0⟩))
  else none

/-- The 2016-era `core` slice `binary_search_by` loop, comparing entries
to the target by `ptr` (Block ordering is by pointer, spec section 3).
An explicit iteration budget (first `Nat` argument) keeps the definition
structurally recursive; `lim` strictly decreases each round, so a budget
of the initial `lim` is never exhausted before `lim = 0`. -/
def binarySearchGo (es : List Block) (key : Nat) : Nat → Nat → Nat → Except Nat Nat
  | 0, base, _ => Except.error base
  | fuel + 1, base, lim =>
    if lim = 0 then Except.error base
    else
      let ix := base + lim / 2
      match compare (es.getD ix ⟨0, 0⟩).ptr key with
      | Ordering.lt => binarySearchGo es key fuel (ix + 1) ((lim - 1) / 2)
      | Ordering.gt => binarySearchGo es key fuel base (lim / 2)
      | Ordering.eq => Except.ok ix

/-- `BlockVec::search`, bookkeeper.rs lines 331-333. -/
def BlockVec.search (s : BlockVec) (block : Block) : Except Nat Nat :=
  binarySearchGo s.buf block.ptr s.len 0 s.len

/-- `BlockVec::find`, bookkeeper.rs lines 585-590. -/
def BlockVec.find (s : BlockVec) (block : Block) : Nat :=
  match s.search block with
  | Except.ok x => x
  | Except.error x => x

/-- The five operations of the meta-circular recursion cycle
(`reserve` ↔ `init` / `realloc_inplace` / `alloc_fresh` ↔ `push`),
as an instruction type for the fuel-indexed interpreter `run`. -/
inductive Call where
  | reserve (needed : Nat)
  | init
  | push (block : Block)
  | alloc_fresh (size align : Nat)
  | realloc_inplace (ind : Nat) (block : Block) (new_size : Nat)
deriving DecidableEq, Repr

/-- Result of a `Call`: a plain state, a pointer with a state, or a
`Result<(),()>` flag with a state. -/
inductive CallRes where
  | st (s : BlockVec)
  | ptrSt (p : Nat) (s : BlockVec)
  | okSt (ok : Bool) (s : BlockVec)
deriving DecidableEq, Repr

/-- Project a `Call` outcome to a plain state. -/
def asSt : Option CallRes → Option BlockVec
  | some (CallRes.st s) => some s
  | _ => none

/-- Project a `Call` outcome to pointer-and-state. -/
def asPtrSt : Option CallRes → Option (Nat × BlockVec)
  | some (CallRes.ptrSt p s) => some (p, s)
  | _ => none

/-- Project a `Call` outcome to ok-flag-and-state. -/
def asOkSt : Option CallRes → Option (Bool × BlockVec)
  | some (CallRes.okSt b s) => some (b, s)
  | _ => none

/-- Fuel-indexed interpreter for the recursion cycle.  Each arm is a
direct transliteration of the corresponding source function; `none`
means fuel exhaustion, a panic, an OOM abort, or a raw write outside the
modelled buffer. -/
def run : Nat → BlockVec → Call → Option CallRes
  | 0, _, _ => none
  | fuel + 1, s, c =>
    match c with
    -- `BlockVec::reserve`, bookkeeper.rs lines 524-581 (the commented-out
    -- block at lines 525-544 is dead code and not modelled).
    | Call.reserve needed =>
      match (if s.ptr = EMPTY_HEAP then asSt (run fuel s Call.init) else some s) with
      | none => none
      | some s1 =>
        if needed > s1.cap then
          let block : Block := ⟨s1.cap, s1.ptr⟩
          let ind := s1.find block
          match asOkSt (run fuel s1 (Call.realloc_inplace ind block needed)) with
          | none => none
          | some (true, s2) =>
            -- inplace success: `self.cap = needed`; the slots behind the
            -- buffer now physically belong to it.
            some (CallRes.st { s2 with cap := needed, buf := growBuf s2.buf needed })
          | some (false, s2) =>
            -- fresh path, lines 563-575.  Note the source sets `self.cap`
            -- BEFORE calling `alloc_fresh`, and passes the new capacity
            -- (a slot count) as the byte size of the fresh allocation.
            let newCap := satAdd needed (min s2.cap (200 + s2.cap / 2))
            let s3 := { s2 with cap := newCap }
            match asPtrSt (run fuel s3 (Call.alloc_fresh newCap alignOfBlock)) with
            | none => none
            | some (p, s4) =>
              -- `ptr::copy_nonoverlapping(old_ptr, *self.ptr, self.len)`:
              -- the fresh buffer starts with the current `len` entries,
              -- the rest is junk.
              let newBuf := s4.buf.take s4.len ++ List.replicate (newCap - s4.len) ⟨0, 0⟩
              some (CallRes.st { s4 with ptr := p, buf := newBuf })
        else some (CallRes.st s1)
    -- `BlockVec::init`, bookkeeper.rs lines 158-209.
    | Call.init =>
      let size := INITIAL_CAPACITY * sizeOfBlock + alignOfBlock
      match s.incBrk size with
      | (p, s1) =>
        match aligner p alignOfBlock with
        | none => none
        | some a =>
          let alignment_block : Block := ⟨a, p⟩
          let s2 := { s1 with cap := INITIAL_CAPACITY, ptr := alignment_block.endAddr,
                              buf := List.replicate INITIAL_CAPACITY ⟨0, 0⟩ }
          let stub : Block :=
            ⟨alignOfBlock - a,
             (Block.mk (INITIAL_CAPACITY * sizeOfBlock) alignment_block.endAddr).endAddr⟩
          let s3 := { s2 with seg_end := stub.endAddr }
          match asSt (run fuel s3 (Call.push alignment_block)) with
          | none => none
          | some s4 =>
            if stub.size ≠ 0 then run fuel s4 (Call.push stub)
            else some (CallRes.st s4)
    -- `BlockVec::push`, bookkeeper.rs lines 304-326: reserve one more
    -- slot (with the pre-reserve length), raw-write at the current
    -- length, increment the length.
    | Call.push block =>
      match asSt (run fuel s (Call.reserve (s.len + 1))) with
      | none => none
      | some s1 =>
        match s1.writeSlot s1.len block with
        | none => none
        | some s2 => some (CallRes.st { s2 with len := s2.len + 1 })
    -- `BlockVec::alloc_fresh`, bookkeeper.rs lines 344-393.
    | Call.alloc_fresh size align =>
      let can_size := canonicalize_brk size
      -- `can_size.checked_add(align).unwrap_or_else(|| sys::oom())`
      if can_size + align ≥ W then none
      else
        match s.incBrk (can_size + align) with
        | (p, s1) =>
          match aligner p align with
          | none => none
          | some a =>
            let alignment_block : Block := ⟨a, p⟩
            let res : Block := ⟨size, alignment_block.endAddr⟩
            let excessive : Block := ⟨can_size - size, res.endAddr⟩
            let s2 := { s1 with seg_end := excessive.endAddr }
            match asSt (run fuel s2 (Call.push alignment_block)) with
            | none => none
            | some s3 =>
              match asSt (run fuel s3 (Call.push excessive)) with
              | none => none
              | some s4 => some (CallRes.ptrSt res.ptr s4)
    -- `BlockVec::realloc_inplace`, bookkeeper.rs lines 410-458.
    | Call.realloc_inplace ind block new_size =>
      match s.getEntry (ind + 1) with
      | some entry =>
        if block.left_to entry.ptr && decide (new_size ≤ wadd entry.size block.size) then
          -- `entry.size -= new_size - block.size; entry.ptr = entry.end()`
          let entry1 := { entry with size := wsub entry.size (wsub new_size block.size) }
          some (CallRes.okSt true (s.setEntry (ind + 1) { entry1 with ptr := entry1.endAddr }))
        else some (CallRes.okSt false s)
      | none =>
        if block.left_to s.seg_end then
          match asPtrSt (run fuel s (Call.alloc_fresh (wsub new_size block.size) 1)) with
          | none => none
          | some (_, s1) => some (CallRes.okSt true s1)
        else some (CallRes.okSt false s)

/-- `BlockVec::reserve` (typed wrapper over `run`). -/
def BlockVec.reserve (fuel : Nat) (s : BlockVec) (needed : Nat) : Option BlockVec :=
  asSt (run fuel s (Call.reserve needed))

/-- `BlockVec::init` (typed wrapper over `run`). -/
def BlockVec.init (fuel : Nat) (s : BlockVec) : Option BlockVec :=
  asSt (run fuel s Call.init)

/-- `BlockVec::push` (typed wrapper over `run`). -/
def BlockVec.push (fuel : Nat) (s : BlockVec) (block : Block) : Option BlockVec :=
  asSt (run fuel s (Call.push block))

/-- `BlockVec::alloc_fresh` (typed wrapper over `run`). -/
def BlockVec.alloc_fresh (fuel : Nat) (s : BlockVec) (size align : Nat) :
    Option (Nat × BlockVec) :=
  asPtrSt (run fuel s (Call.alloc_fresh size align))

/-- `BlockVec::realloc_inplace` (typed wrapper over `run`). -/
def BlockVec.realloc_inplace (fuel : Nat) (s : BlockVec) (ind : Nat) (block : Block)
    (new_size : Nat) : Option (Bool × BlockVec) :=
  asOkSt (run fuel s (Call.realloc_inplace ind block new_size))

/-- `BlockVec::insert`, bookkeeper.rs lines 729-767 (debug assertions at
lines 731-733 and 759-760 are release no-ops).  The gap scan
(lines 738-751) filters the entries from `ind` on by `is_free` and, when
one is found, yields its offset RELATIVE to `ind` (`enumerate` comes
after `skip`); otherwise it reserves a slot, increments the length and
yields the pre-reserve absolute length.  The memmove (line 755) then
copies `self.len - n` slots from `ind` to `ind + 1`. -/
def BlockVec.insert (fuel : Nat) (s : BlockVec) (ind : Nat) (block : Block) :
    Option BlockVec :=
  let scanRes := (s.entries.drop ind).findIdx? (fun x => x.is_free)
  let step : Option (Nat × BlockVec) :=
    match scanRes with
    | some k => some (k, s)
    | none =>
      match asSt (run fuel s (Call.reserve (s.len + 1))) with
      | none => none
      | some s1 => some (s.len, { s1 with len := s1.len + 1 })
  match step with
  | none => none
  | some (n, s1) =>
    -- `self[ind..]` and `self[ind + 1..]` panic unless `ind + 1 ≤ len`.
    if ind + 1 ≤ s1.len then
      match memmoveSlots s1.buf ind (ind + 1) (wsub s1.len n) with
      | none => none
      | some buf1 =>
        let s2 := { s1 with buf := buf1 }
        -- `self[ind] = block`
        match s2.getEntry ind with
        | none => none
        | some _ => some (s2.setEntry ind block)
    else none

/-- `BlockVec::free_ind`, bookkeeper.rs lines 637-671.  `&mut self[ind]`
panics when `ind ≥ len`; the merge-right branch additionally requires
`ind + 1 < len`. -/
def BlockVec.free_ind (fuel : Nat) (s : BlockVec) (ind : Nat) (block : Block) :
    Option BlockVec :=
  match s.getEntry ind with
  | none => none
  | some entry =>
    if entry.is_free && decide (ind + 1 < s.len) && entry.left_to block.ptr then
      some (s.setEntry ind { entry with size := wadd entry.size block.size })
    else if ind ≠ 0 then
      match s.getEntry (ind - 1) with
      | none => none
      | some prev =>
        if prev.is_free && prev.left_to block.ptr then
          some (s.setEntry (ind - 1) { prev with size := wadd prev.size block.size })
        else BlockVec.insert fuel s ind block
    else BlockVec.insert fuel s ind block

/-- `BlockVec::free`, bookkeeper.rs lines 629-632. -/
def BlockVec.free (fuel : Nat) (s : BlockVec) (block : Block) : Option BlockVec :=
  BlockVec.free_ind fuel s (s.find block) block

/-- The right-to-left scan of `BlockVec::alloc` (bookkeeper.rs
lines 255-278), visiting indices `n - 1, n - 2, ..., 0`.  Returns
`some none` when no entry fits, and otherwise the chosen index, the
block to hand out (`⟨i.size, i.ptr + aligner⟩`) and the updated entry
left behind (`set_free` when the aligner is zero, else size `aligner`). -/
def allocScan (entries : List Block) (size align : Nat) :
    Nat → Option (Option (Nat × Block × Block))
  | 0 => some none
  | n + 1 =>
    match entries.get? n with
    | none => some none
    | some e =>
      match aligner e.ptr align with
      | none => none
      | some a =>
        if wadd size a ≤ e.size then
          some (some (n, ⟨e.size, wadd e.ptr a⟩,
            if a = 0 then e.set_free else { e with size := a }))
        else allocScan entries size align n

/-- `BlockVec::alloc`, bookkeeper.rs lines 250-298. -/
def BlockVec.alloc (fuel : Nat) (s : BlockVec) (size align : Nat) :
    Option (Nat × BlockVec) :=
  match allocScan s.entries size align s.len with
  | none => none
  | some none => asPtrSt (run fuel s (Call.alloc_fresh size align))
  | some (some (n, b, upd)) =>
    let s1 := s.setEntry n upd
    if b.size ≠ size then
      -- `self.insert(n, Block { size: b.size - size, ptr: *b.ptr + size })`
      match BlockVec.insert fuel s1 n ⟨wsub b.size size, wadd b.ptr size⟩ with
      | none => none
      | some s2 => some (b.ptr, s2)
    else some (b.ptr, s1)

/-- `BlockVec::realloc`, bookkeeper.rs lines 482-518.  The shrink branch
(lines 483-493) passes the freed tail `⟨new_size - block.size,
block.ptr + new_size⟩` to `free_ind` — the subtraction as written in the
source. -/
def BlockVec.realloc (fuel : Nat) (s : BlockVec) (block : Block)
    (new_size align : Nat) : Option (Nat × BlockVec) :=
  if new_size ≤ block.size then
    match BlockVec.free_ind fuel s (s.find block)
        ⟨wsub new_size block.size, wadd block.ptr new_size⟩ with
    | none => none
    | some s1 => some (block.ptr, s1)
  else
    match BlockVec.realloc_inplace fuel s (s.find block) block new_size with
    | none => none
    | some (true, s1) => some (block.ptr, s1)
    | some (false, s1) =>
      -- grow by copy: alloc, byte-copy (contents are not modelled), free.
      match BlockVec.alloc fuel s1 new_size align with
      | none => none
      | some (p, s2) =>
        match BlockVec.free fuel s2 block with
        | none => none
        | some s3 => some (p, s3)

/-- The directory invariant exactly as claim C5 words it: entries sorted
by `ptr`; each entry ends at or before the next one's `ptr`, with
equality only if one of the two is occupied; every entry ends at or
before `seg_end`; `len ≤ cap`.  This definition follows the claim's (and
spec section 8's) wording, to be compared against the code. -/
def specInvariant (s : BlockVec) : Bool :=
  ((s.entries.zip (s.entries.drop 1)).all (fun q =>
    decide (q.1.ptr ≤ q.2.ptr) && decide (q.1.endAddr ≤ q.2.ptr) &&
    (!(q.1.endAddr == q.2.ptr) || !q.1.is_free || !q.2.is_free))) &&
  (s.entries.all (fun a => decide (a.endAddr ≤ s.seg_end))) &&
  decide (s.len ≤ s.cap)

/-- The loop body of `BlockVec::check`, bookkeeper.rs lines 785-797:
`prev` and `endv` are the previous entry's `ptr` and `end` (the latter
seeded with the FIRST entry's `ptr`, line 784). -/
def checkGo (segEnd : Nat) : Nat → Nat → List Block → Bool
  | _, _, [] => true
  | prev, endv, i :: rest =>
    decide (i.ptr ≥ prev) &&
    (decide (i.ptr > endv) || (i.is_free && (i.ptr == endv))) &&
    decide (i.endAddr ≤ segEnd) &&
    checkGo segEnd i.ptr i.endAddr rest

/-- `BlockVec::check`, bookkeeper.rs lines 780-802: the consistency
assertions the source itself runs after every operation in debug builds. -/
def checkOk (s : BlockVec) : Bool :=
  match s.entries with
  | [] => true
  | x :: rest => checkGo s.seg_end x.ptr x.ptr rest && decide (s.len ≤ s.cap)

/-! ### Concrete directory states used by the claim theorems -/

/-- One free entry `[200, 205)`, capacity 2: a directory in which
`realloc` is asked to shrink the (unrecorded) allocation
`{ptr := 100, size := 10}` to 4 bytes. -/
def c1s : BlockVec :=
  { cap := 2, len := 1, seg_end := 1000, ptr := 5000, buf := [⟨5, 200⟩, ⟨0, 0⟩],
    brk := 1000 }

/-- An initialised, empty directory whose segment (and kernel break) end
at 60; the allocation `{ptr := 50, size := 10}` sits at the segment top. -/
def c2s : BlockVec :=
  { cap := 16, len := 0, seg_end := 60, ptr := 5000,
    buf := List.replicate 16 ⟨0, 0⟩, brk := 60 }

/-- One free entry `[0, 100)`; `alloc(10, 4)` is served from it with
aligner 4. -/
def c3s : BlockVec :=
  { cap := 4, len := 1, seg_end := 1000, ptr := 5000,
    buf := [⟨100, 0⟩, ⟨0, 0⟩, ⟨0, 0⟩, ⟨0, 0⟩], brk := 1000 }

/-- Three entries: free `[10, 12)`, occupied placeholder at 20, free
`[30, 32)`; `insert(0, {ptr := 5, size := 2})` should absorb the
placeholder. -/
def c4s : BlockVec :=
  { cap := 4, len := 3, seg_end := 1000, ptr := 5000,
    buf := [⟨2, 10⟩, ⟨0, 20⟩, ⟨2, 30⟩, ⟨0, 0⟩], brk := 1000 }

/-- Two free entries `[0, 100)` and `[150, 200)` with `seg_end = 200`:
a directory satisfying every invariant, about to run `alloc(10, 4)`. -/
def c5s : BlockVec :=
  { cap := 4, len := 2, seg_end := 200, ptr := 5000,
    buf := [⟨100, 0⟩, ⟨50, 150⟩, ⟨0, 0⟩, ⟨0, 0⟩], brk := 200 }

/-- One free entry `[0, 5)` at the last index; freeing
`{ptr := 5, size := 3}` at index 0 is a merge-right situation. -/
def c6s : BlockVec :=
  { cap := 4, len := 1, seg_end := 1000, ptr := 5000,
    buf := [⟨5, 0⟩, ⟨0, 0⟩, ⟨0, 0⟩, ⟨0, 0⟩], brk := 1000 }

/-- An initialised, empty directory whose segment ends at 99: the block
`{ptr := 50, size := 10}` is neither adjacent to a next entry nor to the
segment end, so growing it in place must fail. -/
def c9s : BlockVec :=
  { cap := 4, len := 0, seg_end := 99, ptr := 5000,
    buf := List.replicate 4 ⟨0, 0⟩, brk := 99 }

/-- An initialised directory (buffer pointer is not the sentinel) with
one entry and spare capacity. -/
def c10s : BlockVec :=
  { cap := 4, len := 1, seg_end := 100, ptr := 5000,
    buf := [⟨5, 0⟩, ⟨0, 0⟩, ⟨0, 0⟩, ⟨0, 0⟩], brk := 100 }

/-! ### Claim theorems -/

/-- Claim C1 (code bug).  The claim says the shrink branch of `realloc`
frees a tail of size `b.size - new_size`; the source (bookkeeper.rs
line 488) computes `new_size - block.size`, which wraps for a genuine
shrink.  Shrinking `{ptr := 100, size := 10}` to 4 bytes in state `c1s`
does return `b.ptr = 100`, but the block handed to `free_ind` — and the
entry left in the directory — has the wrapped size `2^64 - 6`, not the
6 the claim requires. -/
theorem realloc_shrink_tail_size_bug :
    (BlockVec.realloc 9 c1s ⟨10, 100⟩ 4 1).map (fun r => (r.1, BlockVec.entries r.2)) =
      some (100, [⟨W - 6, 104⟩]) ∧
    (10 : Nat) - 4 = 6 ∧ W - 6 ≠ 6 := by decide

/-- Claim C2 (code bug).  In state `c2s` the block `{ptr := 50,
size := 10}` ends exactly at `seg_end = 60` and there is no following
entry, so `realloc_inplace(0, b, 20)` takes the segment-extension branch
and returns Ok via `alloc_fresh(10, 1)` — but because
`aligner(p, 1) = 1 - p % 1 = 1`, that `alloc_fresh` call returns
`old seg_end + 1 = 61`, not the old segment end 60 that the claim (and
the source's own guarantee 3 at line 343 and the assertion at line 447)
require. -/
theorem realloc_inplace_extension_pointer_bug :
    c2s.seg_end = 60 ∧ (Block.mk 10 50).endAddr = c2s.seg_end ∧
    (BlockVec.realloc_inplace 9 c2s 0 ⟨10, 50⟩ 20).map Prod.fst = some true ∧
    (BlockVec.realloc_inplace 9 c2s 0 ⟨10, 50⟩ 20).map Prod.snd =
      (BlockVec.alloc_fresh 8 c2s 10 1).map Prod.snd ∧
    (BlockVec.alloc_fresh 8 c2s 10 1).map Prod.fst = some 61 ∧
    (61 : Nat) ≠ c2s.seg_end := by decide

/-- Claim C3 (code bug).  Serving `alloc(10, 4)` from the free entry
`E = [0, 100)` of `c3s` (aligner `a = 4`) returns `E.ptr + a = 4` as the
claim says, but the remainder entry the source inserts (bookkeeper.rs
lines 281-287) has size `E.size - size = 90`, not the claim's
`E.size - (a + size) = 86`: the aligner bytes are counted twice, so the
inserted entry covers `[14, 104)` although only `[0, 100)` was free. -/
theorem alloc_tail_overcount_bug :
    aligner 0 4 = some 4 ∧
    (BlockVec.alloc 9 c3s 10 4).map (fun r => (r.1, BlockVec.entries r.2)) =
      some (4, [⟨90, 14⟩]) ∧
    (100 : Nat) - (4 + 10) = 86 ∧ (90 : Nat) ≠ 86 := by decide

/-- Claim C4 (code bug).  `insert(0, {ptr := 5, size := 2})` in `c4s`
should, per the claim and the source's own doc comment, scan for the
first OCCUPIED entry (the placeholder at index 1), shift `[0, 1)` right
into it and keep `{ptr := 30, size := 2}`.  The source (bookkeeper.rs
lines 738-755) instead scans for the first FREE entry, obtains the
RELATIVE offset 0, and memmoves `len - 0 = 3` slots, so the resulting
directory still contains the placeholder at 20 and has lost the entry at
30. -/
theorem insert_gap_scan_bug :
    (BlockVec.insert 9 c4s 0 ⟨2, 5⟩).map BlockVec.entries =
      some [⟨2, 5⟩, ⟨2, 10⟩, ⟨0, 20⟩] ∧
    some [(⟨2, 5⟩ : Block), ⟨2, 10⟩, ⟨0, 20⟩] ≠
      some [(⟨2, 5⟩ : Block), ⟨2, 10⟩, ⟨2, 30⟩] := by decide

/-- Claim C5 (code bug).  State `c5s` satisfies both the claim's
invariant conjunction (`specInvariant`) and the source's own `check()`
assertions (`checkOk`), yet after the public operation `alloc(10, 4)`
returns (pointer 152), the directory contains `{ptr := 162, size := 40}`
whose end 202 exceeds `seg_end = 200`: invariant I4 — and the source's
own assertion at bookkeeper.rs line 793 — fails after a public
operation. -/
theorem invariant_broken_after_alloc :
    specInvariant c5s = true ∧ checkOk c5s = true ∧
    (BlockVec.alloc 9 c5s 10 4).map (fun r => (r.1, specInvariant r.2, checkOk r.2)) =
      some (152, false, false) := by decide

/-- Claim C6, counterexample.  In `c6s` the entry at index 0 is free and
ends exactly at `block.ptr = 5`, so the claim requires merge-right,
yielding the single entry `{ptr := 0, size := 8}`.  The source's
merge-right branch (bookkeeper.rs line 649) additionally requires
`ind + 1 < len`, which fails here (index 0 is the last entry), so the
code falls through to `insert` and the directory ends up as
`[{ptr := 5, size := 3}]` instead. -/
theorem free_ind_last_index_no_merge_cex :
    c6s.getEntry 0 = some ⟨5, 0⟩ ∧ (Block.mk 5 0).is_free = true ∧
    (Block.mk 5 0).endAddr = 5 ∧
    (BlockVec.free_ind 9 c6s 0 ⟨3, 5⟩).map BlockVec.entries = some [⟨3, 5⟩] ∧
    some [(⟨3, 5⟩ : Block)] ≠ some [(⟨8, 0⟩ : Block)] := by decide

/-- Claim C6, amended.  For an in-bounds index (the source panics on
`&mut self[ind]` otherwise), `free_ind(i, b)` merges right only when
ADDITIONALLY `i + 1 < len`; otherwise, if `i > 0` and the entry at
`i - 1` is free and left-adjacent to `b`, it merges left; otherwise it
inserts `b` at `i`.  The four conjuncts cover merge-right, merge-left,
and the two insert situations. -/
theorem free_ind_amended (fuel : Nat) (s : BlockVec) (ind : Nat) (block e : Block)
    (he : s.getEntry ind = some e) :
    (e.size ≠ 0 → ind + 1 < s.len → wadd e.ptr e.size = block.ptr →
      BlockVec.free_ind fuel s ind block =
        some (s.setEntry ind ⟨wadd e.size block.size, e.ptr⟩)) ∧
    (∀ prev, ¬ (e.size ≠ 0 ∧ ind + 1 < s.len ∧ wadd e.ptr e.size = block.ptr) →
      ind ≠ 0 → s.getEntry (ind - 1) = some prev →
      prev.size ≠ 0 → wadd prev.ptr prev.size = block.ptr →
      BlockVec.free_ind fuel s ind block =
        some (s.setEntry (ind - 1) ⟨wadd prev.size block.size, prev.ptr⟩)) ∧
    (∀ prev, ¬ (e.size ≠ 0 ∧ ind + 1 < s.len ∧ wadd e.ptr e.size = block.ptr) →
      ind ≠ 0 → s.getEntry (ind - 1) = some prev →
      ¬ (prev.size ≠ 0 ∧ wadd prev.ptr prev.size = block.ptr) →
      BlockVec.free_ind fuel s ind block = BlockVec.insert fuel s ind block) ∧
    (¬ (e.size ≠ 0 ∧ ind + 1 < s.len ∧ wadd e.ptr e.size = block.ptr) → ind = 0 →
      BlockVec.free_ind fuel s ind block = BlockVec.insert fuel s ind block) := by
  have key : ((e.is_free && decide (ind + 1 < s.len) && e.left_to block.ptr) = true) ↔
      (e.size ≠ 0 ∧ ind + 1 < s.len ∧ wadd e.ptr e.size = block.ptr) := by
    simp [Block.is_free, Block.left_to, Block.endAddr, and_assoc]
  refine ⟨?_, ?_, ?_, ?_⟩
  · intro h1 h2 h3
    unfold BlockVec.free_ind
    simp only [he]
    rw [if_pos (key.mpr ⟨h1, h2, h3⟩)]
  · intro prev hneg hnz hp h4 h5
    have keyP : ((prev.is_free && prev.left_to block.ptr) = true) ↔
        (prev.size ≠ 0 ∧ wadd prev.ptr prev.size = block.ptr) := by
      simp [Block.is_free, Block.left_to, Block.endAddr]
    unfold BlockVec.free_ind
    simp only [he]
    rw [if_neg (fun hh => hneg (key.mp hh)), if_pos hnz]
    simp only [hp]
    rw [if_pos (keyP.mpr ⟨h4, h5⟩)]
  · intro prev hneg hnz hp hnegP
    have keyP : ((prev.is_free && prev.left_to block.ptr) = true) ↔
        (prev.size ≠ 0 ∧ wadd prev.ptr prev.size = block.ptr) := by
      simp [Block.is_free, Block.left_to, Block.endAddr]
    unfold BlockVec.free_ind
    simp only [he]
    rw [if_neg (fun hh => hneg (key.mp hh)), if_pos hnz]
    simp only [hp]
    rw [if_neg (fun hh => hnegP (keyP.mp hh))]
  · intro hneg hz
    subst hz
    unfold BlockVec.free_ind
    simp only [he]
    rw [if_neg (fun hh => hneg (key.mp hh)), if_neg (fun hh : (0 : Nat) ≠ 0 => hh rfl)]

/-- Claim C6, witness: freeing the non-adjacent block `{ptr := 9,
size := 4}` at index 0 of `c6s` goes down the insert branch of the
amended description. -/
theorem free_ind_amended_witness :
    BlockVec.free_ind 9 c6s 0 ⟨4, 9⟩ = BlockVec.insert 9 c6s 0 ⟨4, 9⟩ :=
  (free_ind_amended 9 c6s 0 ⟨4, 9⟩ ⟨5, 0⟩ (by decide)).2.2.2 (by decide) rfl

/-- Claim C7 (confirmed).  For every pointer `p` and every non-zero
alignment `a` (Rust `%` panics at `a = 0`), `aligner(p, a)` is
`a - p % a`, computed unconditionally; in particular it is `a`, not 0,
when `p` is already aligned. -/
theorem aligner_formula (p a : Nat) (h : 0 < a) :
    aligner p a = some (a - p % a) ∧ (p % a = 0 → aligner p a = some a) := by
  unfold aligner
  rw [if_neg (Nat.pos_iff_ne_zero.mp h)]
  refine ⟨rfl, fun hz => ?_⟩
  rw [hz, Nat.sub_zero]

/-- Claim C7, witness at the already-aligned pointer 8 with alignment 4:
the aligner is 4, not 0. -/
theorem aligner_formula_witness :
    aligner 8 4 = some (4 - 8 % 4) ∧ (8 % 4 = 0 → aligner 8 4 = some 4) :=
  aligner_formula 8 4 (by decide)

/-- Claim C8, counterexample.  `canonicalize_brk` uses `saturating_add`,
so at `n = 2^64 - 1` the result is `2^64 - 1` and NOT the
exact-arithmetic value `max(200, n + min(1·n, 10000)) = 2^64 + 9999`
required by the claim. -/
theorem canonicalize_brk_exact_cex :
    canonicalize_brk (W - 1) ≠
      max 200 ((W - 1) + min (1 * (W - 1)) 10000) := by decide

/-- Claim C8, amended.  For every `usize` value `n`:
`canonicalize_brk(n) = max(200, sat_add(n, min(1·n, 10000)))` where the
addition saturates at `2^64 - 1`; the result is at least 200 and at
least `n`, and it agrees with the claim's exact formula whenever
`n + min(1·n, 10000)` does not overflow. -/
theorem canonicalize_brk_saturating (n : Nat) (h : n < W) :
    canonicalize_brk n =
      max BRK_MIN (min (n + min (BRK_MULTIPLIER * n) BRK_MIN_EXTRA) (W - 1)) ∧
    BRK_MIN ≤ canonicalize_brk n ∧ n ≤ canonicalize_brk n ∧
    (n + min (BRK_MULTIPLIER * n) BRK_MIN_EXTRA < W →
      canonicalize_brk n = max BRK_MIN (n + min (BRK_MULTIPLIER * n) BRK_MIN_EXTRA)) := by
  refine ⟨rfl, ?_, ?_, ?_⟩ <;>
    simp only [canonicalize_brk, satAdd, BRK_MIN, BRK_MULTIPLIER, BRK_MIN_EXTRA, W] at h ⊢ <;>
    omega

/-- Claim C8, witness at `n = 3`: the result is at least `BRK_MIN` and at
least the request. -/
theorem canonicalize_brk_saturating_witness :
    BRK_MIN ≤ canonicalize_brk 3 ∧ (3 : Nat) ≤ canonicalize_brk 3 :=
  ⟨(canonicalize_brk_saturating 3 (by decide)).2.1,
   (canonicalize_brk_saturating 3 (by decide)).2.2.1⟩

/-- Claim C9 (confirmed).  Whenever `realloc_inplace` returns `Err`, the
whole allocator state — directory entries, `len`, `cap`, the buffer
pointer, `seg_end`, and even the kernel break (so no `inc_brk` happened)
— is exactly the entry state: both `Err` paths of the source
(bookkeeper.rs lines 435 and 451) return before any mutation. -/
theorem realloc_inplace_err_frame (fuel : Nat) (s : BlockVec) (ind : Nat) (block : Block)
    (new_size : Nat) (s2 : BlockVec)
    (h : BlockVec.realloc_inplace fuel s ind block new_size = some (false, s2)) :
    s2 = s := by
  cases fuel with
  | zero => simp [BlockVec.realloc_inplace, run, asOkSt] at h
  | succ fuel =>
    rw [BlockVec.realloc_inplace] at h
    simp only [run] at h
    cases hg : s.getEntry (ind + 1) with
    | some entry =>
      rw [hg] at h
      cases hcb : (block.left_to entry.ptr && decide (new_size ≤ wadd entry.size block.size)) with
      | true => simp [hcb, asOkSt] at h
      | false =>
        simp [hcb, asOkSt] at h
        exact h.symm
    | none =>
      rw [hg] at h
      cases hl : block.left_to s.seg_end with
      | false =>
        simp [hl, asOkSt] at h
        exact h.symm
      | true =>
        simp only [hl, if_true] at h
        cases hr : asPtrSt (run fuel s (Call.alloc_fresh (wsub new_size block.size) 1)) with
        | none => rw [hr] at h; simp [asOkSt] at h
        | some ps => rw [hr] at h; simp [asOkSt] at h

/-- Claim C9, witness: in `c9s` the block `{ptr := 50, size := 10}` ends
at 60 ≠ `seg_end = 99` and has no successor entry, so growing in place
fails with `Err` and the state is untouched. -/
theorem realloc_inplace_err_frame_witness :
    c9s = c9s ∧ BlockVec.realloc_inplace 5 c9s 0 ⟨10, 50⟩ 20 = some (false, c9s) :=
  ⟨realloc_inplace_err_frame 5 c9s 0 ⟨10, 50⟩ 20 c9s (by decide), by decide⟩

/-- Claim C10 (confirmed).  On an initialised directory (`buf_ptr` is
not the `EMPTY_HEAP` sentinel) with `needed ≤ cap`, `reserve` is a
complete no-op: the state — capacity, length, buffer pointer and
contents, segment end, and the kernel break (so no `inc_brk` call) — is
returned unchanged. -/
theorem reserve_noop (fuel : Nat) (s : BlockVec) (needed : Nat)
    (h1 : s.ptr ≠ EMPTY_HEAP) (h2 : needed ≤ s.cap) :
    BlockVec.reserve (fuel + 1) s needed = some s := by
  rw [BlockVec.reserve]
  simp only [run, if_neg h1]
  rw [if_neg (by omega : ¬ needed > s.cap)]
  rfl

/-- Claim C10, witness: `reserve 3` on the capacity-4 directory `c10s`
returns it unchanged. -/
theorem reserve_noop_witness :
    BlockVec.reserve 5 c10s 3 = some c10s :=
  reserve_noop 4 c10s 3 (by decide) (by decide)

end Ralloc
